import Mathlib

set_option autoImplicit false

namespace ImageInspector

/-! Shallow embedding of the image acquisition and extraction pipeline of
`pkg/inspector/image-inspector.go`.  The repository holds two revisions of the
subsystem: they agree on the tar materializer (`processTarStream`) and on the
essentials of the credential-collection construction, and both are covered by
the embeddings below; the provisioner differs between the revisions — the
second revision's `createAndExtractImage` removes the ephemeral container
through a `defer` on every return path, while the first revision's `Inspect`
removes it only on the success path — so each provisioner variant is embedded
separately (`createAndExtractImage` and `inspectRev1Extract`).  Go library
functions used by the source (`strings.TrimPrefix`, `path.Join` /
`path.Clean`) are embedded faithfully; operating-system calls (`os.Mkdir`,
`os.Chmod`, `os.OpenFile`, `os.Symlink`, `os.Link`) are modelled at the
collaborator boundary on an abstract filesystem state. -/

/-- Test whether the character list `s` starts with `pre` (structural
implementation of the standard prefix test, so that terms evaluate in the
kernel). -/
def hasPre : List Char → List Char → Bool
  | _, [] => true
  | [], _ :: _ => false
  | a :: as, b :: bs => a = b && hasPre as bs

/-- String form of `hasPre`, the semantics of Go `strings.HasPrefix`. -/
def strHasPre (s pre : String) : Bool :=
  hasPre s.data pre.data

/-- Embedding of Go `strings.TrimPrefix`: returns `s` without the leading
occurrence of `pre` when `s` starts with `pre`, otherwise `s` unchanged.
The source only applies it with the ASCII constant `"rootfs/"`, for which
Go's byte count and the character count agree. -/
def trimPfx (s pre : String) : String :=
  if strHasPre s pre then String.mk (s.data.drop pre.data.length) else s

/-- Split a character list on `'/'`, keeping empty segments, as Go
`strings.Split(s, "/")` does; `cur` is the current segment reversed. -/
def splitSlash : List Char → List Char → List String
  | [], cur => [String.mk cur.reverse]
  | c :: rest, cur =>
    if c = '/' then String.mk cur.reverse :: splitSlash rest []
    else splitSlash rest (c :: cur)

/-- Join path elements with `'/'` (the semantics of
`strings.Join(elems, "/")`). -/
def joinSlash : List String → String
  | [] => ""
  | [p] => p
  | p :: rest => p ++ "/" ++ joinSlash rest

/-- Element loop of Go `path.Clean` (purely lexical cleaning): `acc` is the
stack of kept path elements in reverse order; `".."` pops a kept element,
is dropped at the root of a rooted path, and is kept in a relative path when
there is nothing left to pop. -/
def cleanStack (rooted : Bool) : List String → List String → List String
  | acc, [] => acc.reverse
  | acc, e :: rest =>
    if e = "" || e = "." then cleanStack rooted acc rest
    else if e = ".." then
      match acc with
      | [] =>
        if rooted then cleanStack rooted [] rest
        else cleanStack rooted [".."] rest
      | a :: tl =>
        if a = ".." then cleanStack rooted (".." :: a :: tl) rest
        else cleanStack rooted tl rest
    else cleanStack rooted (e :: acc) rest

/-- Embedding of Go `path.Clean`. -/
def goClean (p : String) : String :=
  if p = "" then "."
  else
    let rooted := strHasPre p "/"
    let out := joinSlash (cleanStack rooted [] (splitSlash p.data []))
    if rooted then "/" ++ out
    else if out = "" then "." else out

/-- Embedding of the two-argument instance of Go `path.Join`, the only form
the source uses (`path.Join(destination, ...)`). -/
def goJoin (a b : String) : String :=
  if a = "" && b = "" then ""
  else if a = "" then goClean b
  else goClean (a ++ "/" ++ b)

/-- Constant `DOCKER_TAR_PREFIX` of the source: the fixed root-filesystem
marker of the runtime's export format. -/
def DOCKER_TAR_MARKER : String := "rootfs/"

/-- Constant `OWNER_PERM_RW` of the source (octal `0600`). -/
def OWNER_PERM_RW : Nat := 0o600

/-- Filesystem node: directory, regular file, or symbolic link.  Timestamps
are not modelled: the source restores them with `os.Chtimes` in best-effort
fashion and discards the error, and no claim concerns them. -/
inductive FsNode where
  | dir (mode : Nat)
  | file (mode : Nat) (content : List Nat)
  | symlink (target : String)
deriving DecidableEq

/-- Filesystem state: association list from path to node; the first binding
for a path shadows later ones. -/
abbrev Fs : Type := List (String × FsNode)

def fsLookup : Fs → String → Option FsNode
  | [], _ => none
  | (q, n) :: rest, p => if q = p then some n else fsLookup rest p

def fsSet (s : Fs) (p : String) (n : FsNode) : Fs := (p, n) :: s

/-- Errors of the modelled system calls.  `eloop` stands for any error of
opening a path through an existing symbolic link, which is not modelled
further. -/
inductive FsError where
  | eexist
  | enoent
  | eisdir
  | eloop
deriving DecidableEq

/-- Model of Go `os.IsExist`. -/
def osIsExist : FsError → Bool
  | .eexist => true
  | _ => false

/-- Model of `os.Mkdir` at the collaborator boundary: fails with `EEXIST`
when the path already exists, otherwise creates a directory node with the
given mode.  Failure modes not relevant to the claims (missing parent,
permission denial) are not modelled. -/
def osMkdir (s : Fs) (p : String) (mode : Nat) : Except FsError Fs :=
  match fsLookup s p with
  | some _ => .error .eexist
  | none => .ok (fsSet s p (.dir mode))

/-- Mode update used by `osChmod`; a symbolic link node has no mode of its
own. -/
def withMode (mode : Nat) : FsNode → FsNode
  | .dir _ => .dir mode
  | .file _ c => .file mode c
  | .symlink t => .symlink t

/-- Model of `os.Chmod`: fails with `ENOENT` when the path is absent,
otherwise updates the node's mode. -/
def osChmod (s : Fs) (p : String) (mode : Nat) : Except FsError Fs :=
  match fsLookup s p with
  | none => .error .enoent
  | some n => .ok (fsSet s p (withMode mode n))

/-- Model of `os.OpenFile(dst, O_CREATE|O_TRUNC|O_WRONLY, mode)`: creates
the file with the given mode when the path is absent; truncates an existing
regular file keeping its old mode (`O_CREATE` does not change the mode of an
existing file); fails with `EISDIR` on a directory and with `eloop` on a
symbolic link (following links on open is not modelled). -/
def osOpenCreateTrunc (s : Fs) (p : String) (mode : Nat) : Except FsError Fs :=
  match fsLookup s p with
  | none => .ok (fsSet s p (.file mode []))
  | some (.file m _) => .ok (fsSet s p (.file m []))
  | some (.dir _) => .error .eisdir
  | some (.symlink _) => .error .eloop

/-- Model of copying the whole entry payload into the freshly opened file
(`io.Copy(file, tr)`); disk-write errors are not modelled, so the copy
always succeeds. -/
def fsWriteContent (s : Fs) (p : String) (bytes : List Nat) : Fs :=
  match fsLookup s p with
  | some (.file m _) => fsSet s p (.file m bytes)
  | _ => s

/-- Model of `os.Symlink(target, p)`: fails with `EEXIST` when `p` exists,
otherwise records a symlink node whose stored target is exactly `target`. -/
def osSymlink (s : Fs) (target p : String) : Except FsError Fs :=
  match fsLookup s p with
  | some _ => .error .eexist
  | none => .ok (fsSet s p (.symlink target))

/-- Model of `os.Link(target, p)`: fails with `ENOENT` when the target is
absent and with `EEXIST` when `p` already exists; otherwise the new path
carries the target's node (inode aliasing after creation is not modelled). -/
def osLink (s : Fs) (target p : String) : Except FsError Fs :=
  match fsLookup s target with
  | none => .error .enoent
  | some n =>
    match fsLookup s p with
    | some _ => .error .eexist
    | none => .ok (fsSet s p n)

/-- Go `archive/tar` type flags used by the source's switch:
`tar.TypeReg = '0'`, `tar.TypeRegA = '\x00'`, `tar.TypeLink = '1'`,
`tar.TypeSymlink = '2'`, `tar.TypeDir = '5'`. -/
def tarTypeReg : Nat := 48

def tarTypeRegA : Nat := 0

def tarTypeLink : Nat := 49

def tarTypeSymlink : Nat := 50

def tarTypeDir : Nat := 53

/-- Header fields of one tar entry as used by the source: `hdr.Name`,
`hdr.Typeflag`, `hdr.Linkname`, and `mode` standing for
`hdr.FileInfo().Mode()`.  Access and modification times are omitted (they
feed only the best-effort `os.Chtimes`, whose error the source discards). -/
structure TarHeader where
  name : String
  typeflag : Nat
  mode : Nat
  linkname : String
deriving DecidableEq

/-- One tar entry: header plus payload bytes (the payload is meaningful for
regular files only). -/
structure TarEntry where
  hdr : TarHeader
  content : List Nat
deriving DecidableEq

/-- Errors returned by `processTarStream`, one constructor per `fmt.Errorf`
site of the source. -/
inductive TarError where
  | extract (msg : String)
  | mkdirFail (e : FsError)
  | chmodDir (e : FsError)
  | createFile (e : FsError)
  | symlinkFail (e : FsError)
  | linkFail (e : FsError)
deriving DecidableEq

/-- Embedding of the body of one iteration of `processTarStream`: the
destination path computation, the permission override, and the switch on
`hdr.Typeflag`. -/
def tarStep (destination : String) (s : Fs) (e : TarEntry) : Except TarError Fs :=
  let dstpath := goJoin destination (trimPfx e.hdr.name DOCKER_TAR_MARKER)
  let mode := Nat.lor e.hdr.mode OWNER_PERM_RW
  if e.hdr.typeflag = tarTypeDir then
    match osMkdir s dstpath mode with
    | .ok s1 => .ok s1
    | .error err =>
      if osIsExist err then
        match osChmod s dstpath mode with
        | .ok s1 => .ok s1
        | .error e2 => .error (.chmodDir e2)
      else .error (.mkdirFail err)
  else if e.hdr.typeflag = tarTypeReg ∨ e.hdr.typeflag = tarTypeRegA then
    match osOpenCreateTrunc s dstpath mode with
    | .error err => .error (.createFile err)
    | .ok s1 => .ok (fsWriteContent s1 dstpath e.content)
  else if e.hdr.typeflag = tarTypeSymlink then
    match osSymlink s e.hdr.linkname dstpath with
    | .ok s1 => .ok s1
    | .error err => .error (.symlinkFail err)
  else if e.hdr.typeflag = tarTypeLink then
    match osLink s (goJoin destination (trimPfx e.hdr.linkname DOCKER_TAR_MARKER)) dstpath with
    | .ok s1 => .ok s1
    | .error err => .error (.linkFail err)
  else
    .ok s

/-- Filesystem state after one entry: the updated state on success, the
unchanged state on failure (each failing modelled syscall leaves no
effect). -/
def tarStepFs (destination : String) (s : Fs) (e : TarEntry) : Fs :=
  match tarStep destination s e with
  | .ok s1 => s1
  | .error _ => s

/-- Replay of a list of entries in stream order, stopping at the first
failing entry. -/
def runEntries (destination : String) (s : Fs) : List TarEntry → Except TarError Fs
  | [] => .ok s
  | e :: rest =>
    match tarStep destination s e with
    | .ok s1 => runEntries destination s1 rest
    | .error err => .error err

/-- Termination of the tar stream as observed through `tr.Next()`: either a
clean end of stream (`io.EOF`) or any other read or decode error. -/
inductive TarTerm where
  | eof
  | readErr (msg : String)
deriving DecidableEq

/-- Embedding of `processTarStream`: replays the entries in stream order and
then observes the terminator; returns the final filesystem state together
with the function's returned error (`none` models a `nil` return). -/
def processTarStream (destination : String) (s : Fs) :
    List TarEntry → TarTerm → Fs × Option TarError
  | [], .eof => (s, none)
  | [], .readErr m => (s, some (.extract m))
  | e :: rest, t =>
    match tarStep destination s e with
    | .ok s1 => processTarStream destination s1 rest t
    | .error err => (s, some err)

/-- Embedding of `handleTarStream`: runs the replay and discards (only logs)
its error. -/
def handleTarStream (destination : String) (s : Fs) (entries : List TarEntry)
    (t : TarTerm) : Fs :=
  (processTarStream destination s entries t).1

/-- Embedding of the producer/consumer join of `createAndExtractImage`
(`err = <-errorChannel` after `handleTarStream` returns): the extraction
phase returns the copy-out producer's error wrapped as in the source, while
the consumer's replay result is logged and discarded by
`handleTarStream`. -/
def extractionOutcome (producerErr : Option String)
    (consumerResult : Fs × Option TarError) : Option String :=
  match producerErr, consumerResult with
  | some e, _ => some ("Unable to extract container: " ++ e)
  | none, _ => none

/-! Authenticated Puller: `getAuthConfigs`, `appendDockerCfgConfigs`,
`decodeDockerResponse` and the credential loop of `pullImage`. -/

/-- Entry of `docker.AuthConfigurations.Configs`: a username/password pair
(the further fields of `docker.AuthConfiguration` play no role in the
source). -/
structure AuthConfig where
  username : String := ""
  password : String := ""
deriving DecidableEq

/-- Named credential entry of the collection, keyed as in the source's map
`map[string]docker.AuthConfiguration`. -/
abbrev NamedAuth : Type := String × AuthConfig

/-- Environment of the credential-collection construction: the outcome of
reading a file (`none` models an unreadable file) and of opening-and-parsing
a docker-config file with `docker.NewAuthConfigurations` (`none` models an
open or parse failure, `some l` a successful parse with entries `l`). -/
structure FileEnv where
  readFile : String → Option String
  parseDockerCfg : String → Option (List NamedAuth)

/-- Embedding of `appendDockerCfgConfigs`: parses one dockercfg file and
appends its entries keyed `"<file>/<name>"` to the collection; an open or
parse failure, and a parse yielding no auths, are errors. -/
def appendDockerCfgConfigs (env : FileEnv) (dockercfg : String)
    (cfgs : List NamedAuth) : Except String (List NamedAuth) :=
  match env.parseDockerCfg dockercfg with
  | none => .error "Unable to open or parse docker config file"
  | some [] => .error "No auths were found in the given dockercfg file"
  | some auths => .ok (cfgs ++ auths.map (fun a => (dockercfg ++ "/" ++ a.1, a.2)))

/-- Embedding of the method `getAuthConfigs` (the revision taking the options
from the inspector): starts from the single `"Default Empty Authentication"`
entry, appends the entries of each dockercfg file (a failing file is only
logged as a warning and skipped), and, when an explicit username is given,
replaces the whole collection by the single entry pairing that username with
the contents of the password file; an unreadable password file is an
error. -/
def getAuthConfigs (env : FileEnv) (dockerCfgFiles : List String)
    (username passwordFile : String) : Except String (List NamedAuth) :=
  let init : List NamedAuth := [("Default Empty Authentication", {})]
  let cfgs := dockerCfgFiles.foldl
    (fun acc f =>
      match appendDockerCfgConfigs env f acc with
      | .ok acc1 => acc1
      | .error _ => acc)
    init
  if username ≠ "" then
    match env.readFile passwordFile with
    | none => .error "Unable to read password file"
    | some token => .ok [("", { username := username, password := token })]
  else
    .ok cfgs

/-- Embedding of the credential loop of `pullImage`: one pull attempt per
credential in the iteration sequence, each attempt's outcome given by the
oracle `outcome` (`none` models a successful attempt, `some msg` the error
received on `parsedErrors`).  Returns the list of credentials attempted, in
order, and the function's result: `ok` as soon as one attempt succeeds, and
the aggregate failure after the sequence is exhausted. -/
def pullImageLoop (outcome : NamedAuth → Option String) :
    List NamedAuth → List NamedAuth × Except String Unit
  | [] => ([], .error "Unable to pull docker image")
  | a :: rest =>
    match outcome a with
    | none => ([a], .ok ())
    | some _ =>
      let r := pullImageLoop outcome rest
      (a :: r.1, r.2)

/-- Fields of one decoded pull-progress message
(`pullMessage` in `decodeDockerResponse`). -/
structure PullMessage where
  status : String
  id : String
  current : Int
  total : Int
  error : String
deriving DecidableEq

/-- Lookup in the `layersBytesDownloaded` map, with the source's
`if !existed { last = 0 }` default. -/
def layersLookup : List (String × Int) → String → Int
  | [], _ => 0
  | (q, v) :: rest, i => if q = i then v else layersLookup rest i

/-- Embedding of the decode loop of `decodeDockerResponse`: `m` is the
`layersBytesDownloaded` map and `acc` the reversed list of byte deltas sent
on `bytesChan` so far.  A message with a non-empty `Error` terminates the
attempt with that error; a `"Downloading"` message forwards the delta
between its cumulative `Current` count and the last observed count for the
same layer id; end of the message list models the clean end of stream
(`parsedErrors <- nil`). -/
def decodeLoop (m : List (String × Int)) (acc : List Int) :
    List PullMessage → List Int × Option String
  | [] => (acc.reverse, none)
  | v :: rest =>
    if v.error ≠ "" then (acc.reverse, some v.error)
    else if v.status = "Downloading" then
      let last := layersLookup m v.id
      decodeLoop ((v.id, v.current) :: m) ((v.current - last) :: acc) rest
    else
      decodeLoop m acc rest

/-- Embedding of `decodeDockerResponse` on a decoded message list: the
deltas forwarded to the aggregator and the value sent on `parsedErrors`. -/
def decodeDockerResponse (msgs : List PullMessage) : List Int × Option String :=
  decodeLoop [] [] msgs

/-- Specification-side reading of the delta policy, written from the spec's
words for the refinement proof of the decoder: the last observed cumulative
`Current` value for a layer id in a processed message list, `0` when the
layer id has not been observed. -/
def lastObserved (processed : List PullMessage) (i : String) : Int :=
  processed.foldl
    (fun acc v => if v.status = "Downloading" ∧ v.id = i then v.current else acc) 0

/-- Specification-side reading of the forwarded deltas: every `Downloading`
message contributes its cumulative count minus the last observed count for
the same layer id. -/
def specDeltas (processed : List PullMessage) : List PullMessage → List Int
  | [] => []
  | v :: rest =>
    if v.status = "Downloading" then
      (v.current - lastObserved processed v.id) :: specDeltas (processed ++ [v]) rest
    else
      specDeltas (processed ++ [v]) rest

/-! Container Provisioner: `createAndExtractImage` with its unconditional
deferred container removal. -/

/-- Image metadata record, abstracted to its identity. -/
structure ImageMeta where
  id : String
deriving DecidableEq

/-- Outcomes of the runtime and filesystem collaborators consulted by
`createAndExtractImage`: container creation, the two inspections, the output
directory setup, the copy-out producer (`DownloadFromContainer`), and the
result of `RemoveContainer` (which the source discards). -/
structure RuntimeEnv where
  createContainer : Except String String
  inspectContainer : Except String String
  inspectImage : Except String ImageMeta
  mkOutputDir : Except String String
  downloadErr : Option String
  removeErr : Option String

/-- Runtime calls made by `createAndExtractImage`, in order; the removal
action records the discarded result of `RemoveContainer`. -/
inductive RtAction where
  | createContainer (name : String)
  | inspectContainer (id : String)
  | inspectImage (ref : String)
  | download (id : String)
  | removeContainer (id : String) (result : Option String)
deriving DecidableEq

/-- Embedding of the second revision's `createAndExtractImage` (lines
676-742): returns the pair `(imageMetadata, err)` of the source together
with the trace of runtime calls.  The `defer` registered right after a
successful container creation appends the removal call on every return
path, and its result is recorded in the trace but never consulted for the
returned value. -/
def createAndExtractImage (env : RuntimeEnv) (containerName : String) :
    (Option ImageMeta × Option String) × List RtAction :=
  match env.createContainer with
  | .error e =>
    ((none, some ("Unable to create docker container: " ++ e)),
      [.createContainer containerName])
  | .ok cid =>
    match env.inspectContainer with
    | .error e =>
      ((none, some ("Unable to get docker container information: " ++ e)),
        [.createContainer containerName, .inspectContainer cid,
          .removeContainer cid env.removeErr])
    | .ok imgRef =>
      match env.inspectImage with
      | .error e =>
        ((none, some ("Unable to get docker image information: " ++ e)),
          [.createContainer containerName, .inspectContainer cid,
            .inspectImage imgRef, .removeContainer cid env.removeErr])
      | .ok im =>
        match env.mkOutputDir with
        | .error e =>
          ((some im, some e),
            [.createContainer containerName, .inspectContainer cid,
              .inspectImage imgRef, .removeContainer cid env.removeErr])
        | .ok _ =>
          match env.downloadErr with
          | some e =>
            ((some im, some ("Unable to extract container: " ++ e)),
              [.createContainer containerName, .inspectContainer cid,
                .inspectImage imgRef, .download cid,
                .removeContainer cid env.removeErr])
          | none =>
            ((some im, none),
              [.createContainer containerName, .inspectContainer cid,
                .inspectImage imgRef, .download cid,
                .removeContainer cid env.removeErr])

/-- Embedding of the provisioning and extraction segment of the first
revision's `Inspect` (lines 101-144): container creation, the two
inspections, the output-directory setup and `CopyFromContainer`, where each
failure returns immediately, and `RemoveContainer` (its error discarded) is
reached only after a successful extraction.  Unlike the second revision's
`createAndExtractImage`, there is no deferred removal on the failure
paths. -/
def inspectRev1Extract (env : RuntimeEnv) (containerName : String) :
    Option String × List RtAction :=
  match env.createContainer with
  | .error e =>
    (some ("Unable to create docker container: " ++ e),
      [.createContainer containerName])
  | .ok cid =>
    match env.inspectContainer with
    | .error e =>
      (some ("Unable to get docker container information: " ++ e),
        [.createContainer containerName, .inspectContainer cid])
    | .ok imgRef =>
      match env.inspectImage with
      | .error e =>
        (some ("Unable to get docker image information: " ++ e),
          [.createContainer containerName, .inspectContainer cid,
            .inspectImage imgRef])
      | .ok _ =>
        match env.mkOutputDir with
        | .error e =>
          (some e,
            [.createContainer containerName, .inspectContainer cid,
              .inspectImage imgRef])
        | .ok _ =>
          match env.downloadErr with
          | some e =>
            (some ("Unable to extract container: " ++ e),
              [.createContainer containerName, .inspectContainer cid,
                .inspectImage imgRef, .download cid])
          | none =>
            (none,
              [.createContainer containerName, .inspectContainer cid,
                .inspectImage imgRef, .download cid,
                .removeContainer cid env.removeErr])

/-! Helper lemmas about the filesystem model and the materializer step. -/

lemma fsLookup_fsSet (s : Fs) (p : String) (n : FsNode) (q : String) :
    fsLookup (fsSet s p n) q = if p = q then some n else fsLookup s q := rfl

lemma osMkdir_eq_ok {s : Fs} {p : String} {m : Nat} {s1 : Fs} :
    osMkdir s p m = .ok s1 ↔ fsLookup s p = none ∧ s1 = fsSet s p (.dir m) := by
  unfold osMkdir
  cases h : fsLookup s p <;> simp [h, eq_comm]

/-- Shape of the filesystem state produced by a successful materializer step:
it is the input state, the input state with one binding at the destination
path, or (for a regular file: create then copy) two bindings at the
destination path. -/
lemma tarStep_ok_shape {destination : String} {s : Fs} {e : TarEntry} {s1 : Fs}
    (h : tarStep destination s e = .ok s1) :
    s1 = s ∨
      (∃ n, s1 = fsSet s (goJoin destination (trimPfx e.hdr.name DOCKER_TAR_MARKER)) n) ∨
      (∃ n1 n2, s1 =
        fsSet (fsSet s (goJoin destination (trimPfx e.hdr.name DOCKER_TAR_MARKER)) n1)
          (goJoin destination (trimPfx e.hdr.name DOCKER_TAR_MARKER)) n2) := by
  simp only [tarStep] at h
  set dst := goJoin destination (trimPfx e.hdr.name DOCKER_TAR_MARKER) with hdst
  set md := Nat.lor e.hdr.mode OWNER_PERM_RW with hmd
  split_ifs at h with h1 h2 h3 h4
  · cases hl : fsLookup s dst with
    | none =>
      simp [osMkdir, hl] at h
      exact Or.inr (Or.inl ⟨_, h.symm⟩)
    | some n =>
      simp [osMkdir, osChmod, osIsExist, hl] at h
      exact Or.inr (Or.inl ⟨_, h.symm⟩)
  · cases hl : fsLookup s dst with
    | none =>
      simp [osOpenCreateTrunc, hl, fsWriteContent, fsLookup_fsSet] at h
      exact Or.inr (Or.inr ⟨_, _, h.symm⟩)
    | some n =>
      cases n with
      | dir m2 => simp [osOpenCreateTrunc, hl] at h
      | file m2 c =>
        simp [osOpenCreateTrunc, hl, fsWriteContent, fsLookup_fsSet] at h
        exact Or.inr (Or.inr ⟨_, _, h.symm⟩)
      | symlink t => simp [osOpenCreateTrunc, hl] at h
  · cases hl : fsLookup s dst with
    | none =>
      simp [osSymlink, hl] at h
      exact Or.inr (Or.inl ⟨_, h.symm⟩)
    | some n => simp [osSymlink, hl] at h
  · cases hl2 : fsLookup s (goJoin destination (trimPfx e.hdr.linkname DOCKER_TAR_MARKER)) with
    | none => simp [osLink, hl2] at h
    | some n =>
      cases hl : fsLookup s dst with
      | none =>
        simp [osLink, hl2, hl] at h
        exact Or.inr (Or.inl ⟨_, h.symm⟩)
      | some n2 => simp [osLink, hl2, hl] at h
  · exact Or.inl (Except.ok.inj h).symm

/-- A successful materializer step changes no path other than the computed
destination path. -/
lemma tarStep_ok_frame {destination : String} {s : Fs} {e : TarEntry} {s1 : Fs}
    (h : tarStep destination s e = .ok s1) (q : String)
    (hq : q ≠ goJoin destination (trimPfx e.hdr.name DOCKER_TAR_MARKER)) :
    fsLookup s1 q = fsLookup s q := by
  rcases tarStep_ok_shape h with rfl | ⟨n, rfl⟩ | ⟨n1, n2, rfl⟩ <;>
    simp [fsLookup_fsSet, Ne.symm hq]

lemma tarStepFs_frame {destination : String} {s : Fs} {e : TarEntry} (q : String)
    (hq : q ≠ goJoin destination (trimPfx e.hdr.name DOCKER_TAR_MARKER)) :
    fsLookup (tarStepFs destination s e) q = fsLookup s q := by
  unfold tarStepFs
  cases hstep : tarStep destination s e with
  | ok s1 => exact tarStep_ok_frame hstep q hq
  | error err => rfl

/-- Claim C1: for every tar entry processed by the materializer, the
destination path is `path.Join(destination, strings.TrimPrefix(name,
"rootfs/"))` and the step writes no other path; a hardlink target undergoes
the same strip-and-root resolution (the node recorded at the destination is
the node found at the resolved target); a symbolic link stores the entry's
raw link target verbatim. -/
theorem claim_c1 (destination : String) (s : Fs) (e : TarEntry) :
    (∀ q, q ≠ goJoin destination (trimPfx e.hdr.name DOCKER_TAR_MARKER) →
      fsLookup (tarStepFs destination s e) q = fsLookup s q) ∧
    (e.hdr.typeflag = tarTypeSymlink → ∀ s1, tarStep destination s e = .ok s1 →
      fsLookup s1 (goJoin destination (trimPfx e.hdr.name DOCKER_TAR_MARKER)) =
        some (.symlink e.hdr.linkname)) ∧
    (e.hdr.typeflag = tarTypeLink → ∀ s1, tarStep destination s e = .ok s1 →
      fsLookup s1 (goJoin destination (trimPfx e.hdr.name DOCKER_TAR_MARKER)) =
        fsLookup s (goJoin destination (trimPfx e.hdr.linkname DOCKER_TAR_MARKER))) := by
  refine ⟨fun q hq => tarStepFs_frame q hq, ?_, ?_⟩
  · intro hsym s1 h
    simp only [tarStep, hsym] at h
    norm_num [tarTypeSymlink, tarTypeDir, tarTypeReg, tarTypeRegA] at h
    cases hl : fsLookup s (goJoin destination (trimPfx e.hdr.name DOCKER_TAR_MARKER)) with
    | none =>
      simp [osSymlink, hl] at h
      simp [← h, fsLookup_fsSet]
    | some n => simp [osSymlink, hl] at h
  · intro hlink s1 h
    simp only [tarStep, hlink] at h
    norm_num [tarTypeLink, tarTypeDir, tarTypeReg, tarTypeRegA, tarTypeSymlink] at h
    cases hl2 : fsLookup s (goJoin destination (trimPfx e.hdr.linkname DOCKER_TAR_MARKER)) with
    | none => simp [osLink, hl2] at h
    | some n =>
      cases hl : fsLookup s (goJoin destination (trimPfx e.hdr.name DOCKER_TAR_MARKER)) with
      | none =>
        simp [osLink, hl2, hl] at h
        simp [← h, fsLookup_fsSet, hl2]
      | some n2 => simp [osLink, hl2, hl] at h

/-- Witness for claim C1 at a concrete symlink entry: with destination
`"/dst"`, a symlink entry named `"rootfs/a/link"` with raw target
`"f.txt"` lands at `"/dst/a/link"` storing exactly `"f.txt"`. -/
theorem claim_c1_witness :
    fsLookup [("/dst/a/link", FsNode.symlink "f.txt")]
      (goJoin "/dst" (trimPfx "rootfs/a/link" DOCKER_TAR_MARKER)) =
      some (.symlink "f.txt") :=
  (claim_c1 "/dst" [] ⟨⟨"rootfs/a/link", tarTypeSymlink, 511, "f.txt"⟩, []⟩).2.1 rfl
    [("/dst/a/link", FsNode.symlink "f.txt")] rfl

/-- Claim C2: a directory entry is created with the entry's mode OR'd with
owner read/write `0600`; when the destination path already exists the step
does not fail with an already-exists error and instead chmods the existing
node to the same effective mode (in the model a chmod of an existing path
always succeeds, so the step succeeds). -/
theorem claim_c2 (destination : String) (s : Fs) (e : TarEntry)
    (hdir : e.hdr.typeflag = tarTypeDir) :
    (fsLookup s (goJoin destination (trimPfx e.hdr.name DOCKER_TAR_MARKER)) = none →
      tarStep destination s e =
        .ok (fsSet s (goJoin destination (trimPfx e.hdr.name DOCKER_TAR_MARKER))
          (.dir (Nat.lor e.hdr.mode OWNER_PERM_RW)))) ∧
    (∀ n, fsLookup s (goJoin destination (trimPfx e.hdr.name DOCKER_TAR_MARKER)) = some n →
      tarStep destination s e =
        .ok (fsSet s (goJoin destination (trimPfx e.hdr.name DOCKER_TAR_MARKER))
          (withMode (Nat.lor e.hdr.mode OWNER_PERM_RW) n))) := by
  constructor
  · intro hnone
    simp [tarStep, hdir, osMkdir, hnone]
  · intro n hsome
    simp [tarStep, hdir, osMkdir, osChmod, osIsExist, hsome]

/-- Witness for claim C2: materializing the directory entry
`"rootfs/a"` (mode `0500`) into a state where `"/dst/a"` already exists as a
directory of mode `0700` succeeds and chmods it to `0500 | 0600 = 0700`. -/
theorem claim_c2_witness :
    tarStep "/dst" [("/dst/a", .dir 448)] ⟨⟨"rootfs/a", tarTypeDir, 320, ""⟩, []⟩ =
      .ok (fsSet [("/dst/a", .dir 448)]
        (goJoin "/dst" (trimPfx "rootfs/a" DOCKER_TAR_MARKER))
        (withMode (Nat.lor 320 OWNER_PERM_RW) (.dir 448))) :=
  (claim_c2 "/dst" [("/dst/a", .dir 448)] ⟨⟨"rootfs/a", tarTypeDir, 320, ""⟩, []⟩ rfl).2
    (.dir 448) rfl

/-- Claim C3: an entry whose type flag is outside the handled set
(directories, regular files, symlinks, hardlinks) is skipped: the step
returns no error, the filesystem state is unchanged, and in particular the
entry's destination path stays absent when it was absent before. -/
theorem claim_c3 (destination : String) (s : Fs) (e : TarEntry)
    (h : e.hdr.typeflag ∉ ([tarTypeDir, tarTypeReg, tarTypeRegA, tarTypeSymlink, tarTypeLink] : List Nat)) :
    tarStep destination s e = .ok s ∧
    (fsLookup s (goJoin destination (trimPfx e.hdr.name DOCKER_TAR_MARKER)) = none →
      fsLookup (tarStepFs destination s e)
        (goJoin destination (trimPfx e.hdr.name DOCKER_TAR_MARKER)) = none) := by
  simp only [List.mem_cons, List.not_mem_nil, or_false, not_or] at h
  obtain ⟨h1, h2, h3, h4, h5⟩ := h
  have hstep : tarStep destination s e = .ok s := by
    simp [tarStep, h1, h2, h3, h4, h5]
  refine ⟨hstep, fun habs => ?_⟩
  unfold tarStepFs
  rw [hstep]
  exact habs

/-- Witness for claim C3 at a concrete character-device entry
(`tar.TypeChar = '3'`): nothing is created for it. -/
theorem claim_c3_witness :
    tarStep "/dst" [] ⟨⟨"rootfs/dev/null", 51, 438, ""⟩, []⟩ = .ok [] ∧
      fsLookup (tarStepFs "/dst" [] ⟨⟨"rootfs/dev/null", 51, 438, ""⟩, []⟩)
        (goJoin "/dst" (trimPfx "rootfs/dev/null" DOCKER_TAR_MARKER)) = none := by
  have h := claim_c3 "/dst" [] ⟨⟨"rootfs/dev/null", 51, 438, ""⟩, []⟩ (by decide)
  exact ⟨h.1, h.2 (by decide)⟩

lemma processTarStream_of_runEntries (destination : String) :
    ∀ (entries : List TarEntry) (s sfin : Fs),
      runEntries destination s entries = .ok sfin →
      ∀ t, processTarStream destination s entries t =
        (sfin, match t with | .eof => none | .readErr m => some (.extract m)) := by
  intro entries
  induction entries with
  | nil =>
    intro s sfin h t
    simp only [runEntries, Except.ok.injEq] at h
    cases t <;> simp [processTarStream, h]
  | cons e rest ih =>
    intro s sfin h t
    simp only [runEntries] at h
    cases hstep : tarStep destination s e with
    | ok s1 =>
      rw [hstep] at h
      simp only at h
      have hrec := ih s1 sfin h t
      cases t <;> simp [processTarStream, hstep, hrec]
    | error err =>
      rw [hstep] at h
      simp at h

/-- Claim C4: when every entry of the stream materializes successfully, the
replay returns `nil` exactly when the stream ends with a clean end of
stream; any other read or decode error aborts the replay with that error
wrapped as in the source while the state reached by materializing all
earlier entries is kept (no rollback); and the extraction phase of
`createAndExtractImage` returns exactly the copy-out producer's error — the
consumer's replay result never influences it. -/
theorem claim_c4 (destination : String) (s sfin : Fs) (entries : List TarEntry)
    (h : runEntries destination s entries = .ok sfin) :
    (∀ t, (processTarStream destination s entries t).2 = none ↔ t = TarTerm.eof) ∧
    processTarStream destination s entries TarTerm.eof = (sfin, none) ∧
    (∀ m, processTarStream destination s entries (TarTerm.readErr m) =
      (sfin, some (TarError.extract m))) ∧
    (∀ p c1 c2, extractionOutcome p c1 = extractionOutcome p c2) ∧
    (∀ c, extractionOutcome none c = none) ∧
    (∀ msg c, extractionOutcome (some msg) c =
      some ("Unable to extract container: " ++ msg)) := by
  have key := processTarStream_of_runEntries destination entries s sfin h
  refine ⟨?_, ?_, ?_, ?_, ?_, ?_⟩
  · intro t
    cases t with
    | eof => simp [key TarTerm.eof]
    | readErr m => simp [key (TarTerm.readErr m)]
  · simpa using key TarTerm.eof
  · intro m
    simpa using key (TarTerm.readErr m)
  · intro p c1 c2
    cases p <;> rfl
  · intro c
    rfl
  · intro msg c
    rfl

/-- Witness for claim C4: a one-entry stream (directory `"rootfs/a"`)
followed by a read error `"boom"` aborts with the wrapped error and keeps
the materialized directory; followed by a clean end of stream it returns
`nil`. -/
theorem claim_c4_witness :
    processTarStream "/d" [] [⟨⟨"rootfs/a", tarTypeDir, 493, ""⟩, []⟩]
      (TarTerm.readErr "boom") =
      ([("/d/a", FsNode.dir 493)], some (TarError.extract "boom")) ∧
    processTarStream "/d" [] [⟨⟨"rootfs/a", tarTypeDir, 493, ""⟩, []⟩] TarTerm.eof =
      ([("/d/a", FsNode.dir 493)], none) := by
  have h := claim_c4 "/d" [] [("/d/a", FsNode.dir 493)]
    [⟨⟨"rootfs/a", tarTypeDir, 493, ""⟩, []⟩] rfl
  exact ⟨h.2.2.1 "boom", h.2.1⟩

/-! Authenticated Puller: attempt counting and ordering. -/

lemma pullImageLoop_all_fail (outcome : NamedAuth → Option String) :
    ∀ cs : List NamedAuth, (∀ a ∈ cs, (outcome a).isSome = true) →
      pullImageLoop outcome cs = (cs, .error "Unable to pull docker image") := by
  intro cs
  induction cs with
  | nil => intro _; rfl
  | cons a rest ih =>
    intro h
    obtain ⟨msg, hmsg⟩ := Option.isSome_iff_exists.mp (h a (List.mem_cons_self a rest))
    have hrest := ih (fun b hb => h b (List.mem_cons_of_mem a hb))
    simp [pullImageLoop, hmsg, hrest]

lemma pullImageLoop_first_success (outcome : NamedAuth → Option String) :
    ∀ (xs : List NamedAuth) (y : NamedAuth) (rest : List NamedAuth),
      (∀ a ∈ xs, (outcome a).isSome = true) → outcome y = none →
      pullImageLoop outcome (xs ++ y :: rest) = (xs ++ [y], .ok ()) := by
  intro xs
  induction xs with
  | nil =>
    intro y rest _ hy
    simp [pullImageLoop, hy]
  | cons a xs ih =>
    intro y rest h hy
    obtain ⟨msg, hmsg⟩ := Option.isSome_iff_exists.mp (h a (List.mem_cons_self a xs))
    have hrec := ih y rest (fun b hb => h b (List.mem_cons_of_mem a hb)) hy
    simp [pullImageLoop, hmsg, hrec]

/-- Claim C5: when the first `M` credentials of the iteration sequence fail
and credential `M+1` succeeds, the puller makes exactly `M+1` attempts and
returns success; when every credential fails it makes exactly `N` attempts
and returns a single aggregate failure. -/
theorem claim_c5 (outcome : NamedAuth → Option String) (xs rest : List NamedAuth)
    (y : NamedAuth) (h1 : ∀ a ∈ xs, (outcome a).isSome = true)
    (h2 : outcome y = none) :
    ((pullImageLoop outcome (xs ++ y :: rest)).1.length = xs.length + 1 ∧
      (pullImageLoop outcome (xs ++ y :: rest)).2 = .ok ()) ∧
    (∀ cs : List NamedAuth, (∀ a ∈ cs, (outcome a).isSome = true) →
      (pullImageLoop outcome cs).1.length = cs.length ∧
      ∃ msg, (pullImageLoop outcome cs).2 = .error msg) := by
  constructor
  · rw [pullImageLoop_first_success outcome xs y rest h1 h2]
    simp
  · intro cs hcs
    rw [pullImageLoop_all_fail outcome cs hcs]
    exact ⟨rfl, _, rfl⟩

/-- Credential-attempt outcome oracle used by the concrete pull scenarios:
only the entry named `"good"` authenticates. -/
def sampleOutcome : NamedAuth → Option String :=
  fun a => if a.1 = "good" then none else some "authentication failed"

/-- Witness for claim C5: with two failing credentials before the
succeeding one, exactly three attempts are made and the result is
success. -/
theorem claim_c5_witness :
    (pullImageLoop sampleOutcome
      [("bad1", {}), ("bad2", {}), ("good", {}), ("later", {})]).1.length = 3 ∧
    (pullImageLoop sampleOutcome
      [("bad1", {}), ("bad2", {}), ("good", {}), ("later", {})]).2 = .ok () := by
  have h := (claim_c5 sampleOutcome [("bad1", {}), ("bad2", {})] [("later", {})]
    ("good", {}) (by decide) (by decide)).1
  simpa using h

/-- Property asserted by claim C6, formalized over the source's data model:
the credential collection is a Go map, whose range-loop iteration order is
unspecified, so every permutation `iter` of the configured collection is a
possible execution; the claim asserts that in every such execution any two
credentials that are both attempted are attempted in the configured
(insertion/priority) order of the collection. -/
def attemptsRespectConfiguredOrder (configured : List NamedAuth)
    (outcome : NamedAuth → Option String) : Prop :=
  ∀ iter : List NamedAuth, iter.Perm configured →
    ∀ a b : NamedAuth,
      configured.indexOf a < configured.indexOf b →
      a ∈ configured → b ∈ configured →
      a ∈ (pullImageLoop outcome iter).1 → b ∈ (pullImageLoop outcome iter).1 →
      (pullImageLoop outcome iter).1.indexOf a <
        (pullImageLoop outcome iter).1.indexOf b

/-- First (earlier-priority) entry of the concrete configured collection:
the default anonymous credential the source inserts first. -/
def cfgA : NamedAuth := ("anon", {})

/-- Second entry of the concrete configured collection: a dockercfg-derived
credential appended after the default one. -/
def cfgB : NamedAuth := ("cfg/reg", { username := "u", password := "p" })

/-- Counterexample to claim C6: with configured collection `[cfgA, cfgB]`
and both credentials failing, the iteration order `[cfgB, cfgA]` — a legal
Go map iteration order — attempts the later-priority credential first, so
the claimed ordering property is false. -/
theorem claim_c6_counterexample :
    ¬ attemptsRespectConfiguredOrder [cfgA, cfgB]
      (fun _ => some "authentication failed") := by
  intro h
  have h2 := h [cfgB, cfgA] (List.Perm.swap cfgA cfgB []) cfgA cfgB
    (by decide) (by decide) (by decide) (by decide) (by decide)
  exact absurd h2 (by decide)

/-- Claim C6 as amended: pull attempts are strictly sequential with stop at
first success — the attempted list is a prefix of the iteration order,
every attempt before the last fails, a success result means the last
attempt succeeded, and a failure result means the whole sequence was
attempted — but the order is the map's (unspecified) iteration order, not a
configured priority order. -/
theorem claim_c6_amended (outcome : NamedAuth → Option String)
    (iter : List NamedAuth) :
    (∃ t, (pullImageLoop outcome iter).1 ++ t = iter) ∧
    (∀ a ∈ (pullImageLoop outcome iter).1.dropLast, (outcome a).isSome = true) ∧
    ((pullImageLoop outcome iter).2 = .ok () →
      ∃ xs y, (pullImageLoop outcome iter).1 = xs ++ [y] ∧ outcome y = none) ∧
    ((pullImageLoop outcome iter).2 ≠ .ok () →
      (pullImageLoop outcome iter).1 = iter) := by
  induction iter with
  | nil =>
    refine ⟨⟨[], rfl⟩, ?_, ?_, ?_⟩ <;> simp [pullImageLoop]
  | cons a rest ih =>
    cases ho : outcome a with
    | none =>
      refine ⟨⟨rest, by simp [pullImageLoop, ho]⟩, ?_, ?_, ?_⟩
      · intro b hb
        simp [pullImageLoop, ho] at hb
      · intro _
        exact ⟨[], a, by simp [pullImageLoop, ho], ho⟩
      · intro hres
        exact absurd (by simp [pullImageLoop, ho]) hres
    | some msg =>
      obtain ⟨⟨t, ht⟩, hfail, hok, hexh⟩ := ih
      simp only [pullImageLoop, ho]
      refine ⟨⟨t, by simp [ht]⟩, ?_, ?_, ?_⟩
      · intro b hb
        rcases hr1 : (pullImageLoop outcome rest).1 with _ | ⟨c, cs⟩
        · rw [hr1] at hb
          simp at hb
        · rw [hr1] at hb
          rw [show (a :: c :: cs).dropLast = a :: (c :: cs).dropLast from rfl] at hb
          rcases List.mem_cons.mp hb with rfl | hb2
          · simp [ho]
          · exact hfail b (by rw [hr1]; exact hb2)
      · intro hres
        obtain ⟨xs, y, hxs, hy⟩ := hok hres
        exact ⟨a :: xs, y, by simp [hxs], hy⟩
      · intro hres
        have hall := hexh hres
        simp [hall]

/-- Witness for claim C6 as amended: for the all-fail outcome over the
iteration order `[cfgB, cfgA]`, the attempted list is a prefix of the
iteration order, and since no attempt succeeds the whole sequence is
attempted. -/
theorem claim_c6_amended_witness :
    (∃ t, (pullImageLoop (fun _ => some "authentication failed")
      [cfgB, cfgA]).1 ++ t = [cfgB, cfgA]) ∧
    (pullImageLoop (fun _ => some "authentication failed") [cfgB, cfgA]).1 =
      [cfgB, cfgA] := by
  have h := claim_c6_amended (fun _ => some "authentication failed") [cfgB, cfgA]
  refine ⟨h.1, h.2.2.2 ?_⟩
  intro hcontra
  simp [pullImageLoop] at hcontra

/-! Pull-progress decoding: the byte-delta computation. -/

lemma layersLookup_cons (q : String) (v : Int) (m : List (String × Int)) (i : String) :
    layersLookup ((q, v) :: m) i = if q = i then v else layersLookup m i := rfl

lemma lastObserved_append (pre : List PullMessage) (v : PullMessage) (i : String) :
    lastObserved (pre ++ [v]) i =
      if v.status = "Downloading" ∧ v.id = i then v.current else lastObserved pre i := by
  simp [lastObserved, List.foldl_append]

/-- Refinement of the decode loop against the specification-side delta
policy: with the map invariant (the map holds, for each layer id, the last
observed cumulative value of the processed messages), the deltas produced
by the source's loop are exactly the specification deltas. -/
lemma decodeLoop_eq_specDeltas :
    ∀ (msgs : List PullMessage) (m : List (String × Int)) (acc : List Int)
      (pre : List PullMessage),
      (∀ x ∈ msgs, x.error = "") →
      (∀ i, layersLookup m i = lastObserved pre i) →
      (decodeLoop m acc msgs).1 = acc.reverse ++ specDeltas pre msgs := by
  intro msgs
  induction msgs with
  | nil =>
    intro m acc pre _ _
    simp [decodeLoop, specDeltas]
  | cons v rest ih =>
    intro m acc pre herr hinv
    have hv : v.error = "" := herr v (List.mem_cons_self v rest)
    have herr2 : ∀ x ∈ rest, x.error = "" :=
      fun x hx => herr x (List.mem_cons_of_mem v hx)
    by_cases hdl : v.status = "Downloading"
    · have hinv2 : ∀ i, layersLookup ((v.id, v.current) :: m) i =
          lastObserved (pre ++ [v]) i := by
        intro i
        rw [layersLookup_cons, lastObserved_append]
        by_cases hid : v.id = i
        · simp [hid, hdl]
        · simp [hid, hdl, hinv i]
      have hstep := ih ((v.id, v.current) :: m)
        ((v.current - layersLookup m v.id) :: acc) (pre ++ [v]) herr2 hinv2
      rw [show (decodeLoop m acc (v :: rest)).1 =
        (decodeLoop ((v.id, v.current) :: m)
          ((v.current - layersLookup m v.id) :: acc) rest).1 from by
          simp [decodeLoop, hv, hdl]]
      rw [hstep]
      simp [specDeltas, hdl, hinv v.id, List.append_assoc]
    · have hinv2 : ∀ i, layersLookup m i = lastObserved (pre ++ [v]) i := by
        intro i
        rw [lastObserved_append]
        simp [hdl, hinv i]
      have hstep := ih m acc (pre ++ [v]) herr2 hinv2
      rw [show (decodeLoop m acc (v :: rest)).1 = (decodeLoop m acc rest).1 from by
        simp [decodeLoop, hv, hdl]]
      rw [hstep]
      simp [specDeltas, hdl]

/-- Claim C7: for every stream of decoded error-free pull messages, the
decoder forwards, for each `Downloading` message, the delta between its
cumulative `Current` count and the last observed cumulative count for the
same layer id (with `0` as initial value); in particular the cumulative
values 100, 250, 400 for one layer id yield forwarded deltas 100, 150,
150. -/
theorem claim_c7 (msgs : List PullMessage) (h : ∀ x ∈ msgs, x.error = "") :
    (decodeDockerResponse msgs).1 = specDeltas [] msgs ∧
    (decodeDockerResponse
      [⟨"Downloading", "layer1", 100, 400, ""⟩,
        ⟨"Downloading", "layer1", 250, 400, ""⟩,
        ⟨"Downloading", "layer1", 400, 400, ""⟩]).1 = [100, 150, 150] := by
  constructor
  · exact decodeLoop_eq_specDeltas msgs [] [] [] h (fun i => rfl)
  · decide

/-- Concrete two-layer pull stream used by the claim C7 witness. -/
def sampleMsgs : List PullMessage :=
  [⟨"Downloading", "layer1", 100, 400, ""⟩,
    ⟨"Downloading", "layer2", 30, 50, ""⟩,
    ⟨"Downloading", "layer1", 250, 400, ""⟩,
    ⟨"Pulling", "", 0, 0, ""⟩,
    ⟨"Downloading", "layer2", 50, 50, ""⟩]

/-- Witness for claim C7 on a concrete two-layer stream. -/
theorem claim_c7_witness :
    (decodeDockerResponse sampleMsgs).1 = specDeltas [] sampleMsgs :=
  (claim_c7 sampleMsgs (by decide)).1

/-- Claim C8: with an explicit username and a readable password file the
credential collection is exactly the single entry pairing that username
with the password file's contents (whatever the dockercfg files
contributed); an unreadable password file is an error; with no dockercfg
file and no username the collection is exactly the single anonymous empty
credential. -/
theorem claim_c8 (env : FileEnv) (files : List String) (u pf : String) :
    ((u ≠ "") → ∀ tok, env.readFile pf = some tok →
      getAuthConfigs env files u pf =
        .ok [("", { username := u, password := tok })]) ∧
    ((u ≠ "") → env.readFile pf = none →
      getAuthConfigs env files u pf = .error "Unable to read password file") ∧
    (getAuthConfigs env [] "" pf =
      .ok [("Default Empty Authentication", {})]) := by
  refine ⟨?_, ?_, ?_⟩
  · intro hu tok htok
    simp [getAuthConfigs, hu, htok]
  · intro hu hnone
    simp [getAuthConfigs, hu, hnone]
  · simp [getAuthConfigs]

/-- File environment with a readable password file, used by the claim C8
witness. -/
def sampleFileEnv : FileEnv := ⟨fun _ => some "secret", fun _ => none⟩

/-- File environment whose password file is unreadable, used by the claim
C8 witness. -/
def sampleFileEnvBad : FileEnv := ⟨fun _ => none, fun _ => none⟩

/-- Witness for claim C8: explicit username with readable password file
yields exactly one entry; with unreadable password file it is an error. -/
theorem claim_c8_witness :
    getAuthConfigs sampleFileEnv ["cfg1"] "alice" "/pw" =
      .ok [("", { username := "alice", password := "secret" })] ∧
    getAuthConfigs sampleFileEnvBad [] "alice" "/pw" =
      .error "Unable to read password file" := by
  have h1 := claim_c8 sampleFileEnv ["cfg1"] "alice" "/pw"
  have h2 := claim_c8 sampleFileEnvBad [] "alice" "/pw"
  exact ⟨h1.1 (by decide) "secret" rfl, h2.2.1 (by decide) rfl⟩

/-- Guarantee of the second revision's provisioner: once the container is
created successfully, `RemoveContainer` is the last runtime call on every
return path — success, inspection failure, directory-setup failure, and
extraction failure alike — and the returned value never depends on the
removal's result. -/
lemma createAndExtract_always_removes (env : RuntimeEnv) (nm cid : String)
    (h : env.createContainer = .ok cid) :
    ((createAndExtractImage env nm).2.getLast? =
      some (RtAction.removeContainer cid env.removeErr)) ∧
    (∀ r, (createAndExtractImage { env with removeErr := r } nm).1 =
      (createAndExtractImage env nm).1) := by
  obtain ⟨cc, ic, ii, md, de, re⟩ := env
  have h2 : cc = Except.ok cid := h
  subst h2
  rcases ic with e1 | ref <;> rcases ii with e2 | im <;> rcases md with e3 | d <;>
    rcases de with _ | e4 <;>
    exact ⟨rfl, fun r => rfl⟩

/-- Runtime environment where container creation succeeds and the container
inspection fails: the failing input for claim C9 against the first
revision. -/
def sampleRuntimeEnvInspectFail : RuntimeEnv :=
  ⟨.ok "cid1", .error "inspect failed", .ok ⟨"img1"⟩, .ok "/out", none, none⟩

/-- Runtime environment where everything succeeds until the copy-out
producer fails: the extraction-failure input for claim C9 against the first
revision. -/
def sampleRuntimeEnvExtractFail : RuntimeEnv :=
  ⟨.ok "cid1", .ok "imgref", .ok ⟨"img1"⟩, .ok "/out", some "copy failed", none⟩

/-- Claim C9 (a bug of the first revision): at the failing input where
container creation succeeds and the container inspection fails, the first
revision's `Inspect` returns with a trace of exactly the create and
inspect calls — `RemoveContainer` is never called and the container leaks —
and likewise on an extraction failure the trace ends at the download call;
the second revision's `createAndExtractImage` conforms to the claim on the
same two inputs, removing the container as its last runtime call. -/
theorem claim_c9 :
    (inspectRev1Extract sampleRuntimeEnvInspectFail "n1").2 =
      [RtAction.createContainer "n1", RtAction.inspectContainer "cid1"] ∧
    (inspectRev1Extract sampleRuntimeEnvExtractFail "n1").2 =
      [RtAction.createContainer "n1", RtAction.inspectContainer "cid1",
        RtAction.inspectImage "imgref", RtAction.download "cid1"] ∧
    ((createAndExtractImage sampleRuntimeEnvInspectFail "n1").2.getLast? =
      some (RtAction.removeContainer "cid1" none)) ∧
    ((createAndExtractImage sampleRuntimeEnvExtractFail "n1").2.getLast? =
      some (RtAction.removeContainer "cid1" none)) := by
  refine ⟨rfl, rfl, ?_, ?_⟩
  · exact (createAndExtract_always_removes sampleRuntimeEnvInspectFail "n1" "cid1" rfl).1
  · exact (createAndExtract_always_removes sampleRuntimeEnvExtractFail "n1" "cid1" rfl).1

/-- Containment of a path in a directory: the path is the directory itself
or lies strictly below it. -/
def underDir (root p : String) : Prop :=
  p = root ∨ strHasPre p (root ++ "/") = true

/-- Claim C10: the materializer performs no containment check on computed
destination paths: the entry name `"rootfs/../escape"` resolves (after
prefix stripping and `path.Join`'s lexical cleaning) to `"/escape"`, which
lies outside the destination root `"/dest"`, and a regular-file step for
that entry writes exactly that outside path. -/
theorem claim_c10 :
    goJoin "/dest" (trimPfx "rootfs/../escape" DOCKER_TAR_MARKER) = "/escape" ∧
    fsLookup
      (tarStepFs "/dest" [] ⟨⟨"rootfs/../escape", tarTypeReg, 420, ""⟩, [104, 105]⟩)
      "/escape" = some (.file 420 [104, 105]) ∧
    ¬ underDir "/dest" "/escape" := by
  refine ⟨by decide, by decide, ?_⟩
  intro h
  rcases h with h1 | h2
  · exact absurd h1 (by decide)
  · exact absurd h2 (by decide)

end ImageInspector
